import Mathlib

/-!
# killapp: a shallow embedding of `killapp.cpp`

The program watches one Windows process, found by a suffix of its image path,
and offers a tray menu to terminate it.  The operating system is modelled by
the answers it gives (which handles open, what the message queue delivers,
what the operator answers); every call the program makes that matters for the
properties below is recorded in a trace of `Effect`s.
-/

namespace Killapp

/-! ## Constants -/

/-- A kernel object handle; a failed call (`NULL`) is `none` at the use site. -/
abbrev HANDLE := Nat

/-- A window handle. -/
abbrev HWND := Nat

/-- The constant `WAIT_SECS` of line 32. -/
def WAIT_SECS : Nat := 10

/-- The menu command `IDC_KILL` of line 28. -/
def IDC_KILL : Nat := 100

/-- The menu command `IDC_EXIT` of line 29. -/
def IDC_EXIT : Nat := 101

/-- The value of `WM_NULL` in `windows.h`. -/
def WM_NULL : Nat := 0

/-- The value of `WM_CLOSE` in `windows.h`. -/
def WM_CLOSE : Nat := 16

/-- The value of `WM_COMMAND` in `windows.h`. -/
def WM_COMMAND : Nat := 273

/-- The value of `WM_RBUTTONDOWN` in `windows.h`. -/
def WM_RBUTTONDOWN : Nat := 516

/-- The value of `WM_USER` in `windows.h`. -/
def WM_USER : Nat := 1024

/-- The tray message `TRAY_MSG`, defined as `WM_USER` in line 27. -/
def TRAY_MSG : Nat := WM_USER

/-- The value of `IDYES` in `windows.h`. -/
def IDYES : Nat := 6

/-- The value of `IDNO` in `windows.h`. -/
def IDNO : Nat := 7

/-- The value of `WAIT_OBJECT_0` in `windows.h`. -/
def WAIT_OBJECT_0 : Nat := 0

/-- The value of `WAIT_FAILED` in `windows.h` (`0xFFFFFFFF`). -/
def WAIT_FAILED : Nat := 4294967295

/-- The value of `INFINITE` in `windows.h` (`0xFFFFFFFF`). -/
def INFINITE : Nat := 4294967295

/-- The value of `NIM_ADD` in `shellapi.h`. -/
def NIM_ADD : Nat := 0

/-- The value of `NIM_DELETE` in `shellapi.h`. -/
def NIM_DELETE : Nat := 2

/-- The capacity of `DWORD processIds[5000]` (line 64). -/
def MAX_PROCESS_IDS : Nat := 5000

/-! ## Effects -/

/-- The calls of the program that the properties below speak about, in the
order they are made. -/
inductive Effect where
  /-- A `MessageBox` with the given caption. -/
  | MessageBox (caption : String) (text : String)
  /-- A call of `showSystemError` (lines 106-145), which always ends in an
  error `MessageBox`. -/
  | showSystemError (message : String)
  /-- One `EnumProcesses` call (line 66). -/
  | EnumProcesses
  /-- One `OpenProcess` call on a process id, with its result. -/
  | OpenProcess (pid : Nat) (result : Option HANDLE)
  | CloseHandle (h : HANDLE)
  | Sleep (ms : Nat)
  | TerminateProcess (h : HANDLE) (uExitCode : Nat)
  | WaitForMultipleObjects (hApp : HANDLE) (hQuitEvent : HANDLE) (ms : Nat)
  | PostMessage (hWnd : Option HWND) (uMsg : Nat)
  | DestroyWindow (hWnd : Option HWND)
  | TrackPopupMenuEx (items : List (Nat × String))
  | RegisterClass
  | CreateWindowEx
  | CreateEvent
  | CreateThread
  | Shell_NotifyIcon (dwMessage : Nat)
  | SignalObjectAndWait (hQuitEvent : HANDLE) (hThread : HANDLE) (ms : Nat)
  | UnregisterClass
  | DestroyIcon (hIcon : HANDLE)
  deriving DecidableEq

/-! ## C strings -/

/-- The integer a `char` is compared as after `tolower` in the C locale. -/
def lowerCode (c : Char) : Int := (c.toLower.toNat : Int)

/-- The library routine `strcmpi`: compare two C strings ignoring ASCII case;
the result is the difference at the first position where they differ, the end
of a string counting as 0. -/
def strcmpi : List Char → List Char → Int
  | [], [] => 0
  | [], b :: _ => 0 - lowerCode b
  | a :: _, [] => lowerCode a
  | a :: as, b :: bs =>
    if lowerCode a = lowerCode b then strcmpi as bs else lowerCode a - lowerCode b

/-! ## ProcessLocator: `lookupProcess` (lines 62-93) -/

/-- What the operating system answers about one process id. -/
structure Process where
  /-- The process identifier returned by `EnumProcesses`. -/
  pid : Nat
  /-- The result of `OpenProcess` with query, terminate and synchronize
  rights; `none` is `NULL` (access denied). -/
  hProc : Option HANDLE
  /-- The canonical image path `GetProcessImageFileName` writes to `procName`;
  `none` when the query fails. -/
  image : Option (List Char)

/-- The return value `lenData` of `GetProcessImageFileName` (line 80): the
number of characters written, 0 on failure. -/
def GetProcessImageFileName (p : Process) : Nat :=
  match p.image with
  | some path => path.length
  | none => 0

/-- The contents of the buffer `procName` after the query. -/
def procNameOf (p : Process) : List Char :=
  match p.image with
  | some path => path
  | none => []

/-- Lines 81-89: the test deciding whether the process whose query returned
`lenData` and filled `procName` is the target. -/
def matchesTarget (targetName : List Char) (lenData : Nat) (procName : List Char) : Bool :=
  let lenTargetName := targetName.length
  if lenData > 0 then
    let lenProcName := procName.length
    if lenProcName > lenTargetName then
      if strcmpi targetName (procName.drop (lenProcName - lenTargetName)) = 0 then true
      else false
    else false
  else false

/-- The `for` loop of lines 73-91 over the enumerated process ids. -/
def lookupLoop (targetName : List Char) : List Process → List Effect × Option HANDLE
  | [] => ([], none)
  | p :: rest =>
    match p.hProc with
    | none =>
      let r := lookupLoop targetName rest
      (Effect.OpenProcess p.pid none :: r.1, r.2)
    | some hProc =>
      if matchesTarget targetName (GetProcessImageFileName p) (procNameOf p) then
        ([Effect.OpenProcess p.pid (some hProc)], some hProc)
      else
        let r := lookupLoop targetName rest
        (Effect.OpenProcess p.pid (some hProc) :: Effect.CloseHandle hProc :: r.1, r.2)

/-- The function `lookupProcess` (lines 62-93).  `running` is the list of processes the
system has, of which `EnumProcesses` reports as many as fit in the buffer.
The assertion `lenTargetName > 0` of line 69 is the precondition `_hlen`. -/
def lookupProcess (targetName : List Char) (_hlen : targetName.length > 0)
    (running : List Process) : List Effect × Option HANDLE :=
  let processIds := running.take MAX_PROCESS_IDS
  let r := lookupLoop targetName processIds
  (Effect.EnumProcesses :: r.1, r.2)

/-! ## LifecycleMonitor: `waitThread` (lines 147-160) -/

/-- The `THREAD_DATA` structure of lines 45-49. -/
structure THREAD_DATA where
  /-- Handle to the app being monitored. -/
  hApp : HANDLE
  /-- The window `WM_CLOSE` is sent to; `none` is `NULL`. -/
  hWndNotify : Option HWND
  /-- The event that makes the thread exit. -/
  hQuitEvent : HANDLE

/-- The function `waitThread` (lines 147-160).  `result` is what `WaitForMultipleObjects`
returns: `WAIT_OBJECT_0` when the app has terminated, `WAIT_OBJECT_0 + 1` when
the quit event is signalled, `WAIT_FAILED` on an error.  The value is the
calls made and the thread's return value. -/
def waitThread (threadData : THREAD_DATA) (result : Nat) : List Effect × Nat :=
  let wait := Effect.WaitForMultipleObjects threadData.hApp threadData.hQuitEvent INFINITE
  let failed :=
    if result = WAIT_FAILED then
      [Effect.showSystemError "Wait for app termination failed: %1"]
    else []
  (wait :: failed ++ [Effect.PostMessage threadData.hWndNotify WM_CLOSE], 0)

/-! ## TerminationController and ControlSurface (lines 97-100, 162-198) -/

/-- The part of the program state the window procedure can touch. -/
structure State where
  /-- The global `::hApp` of line 51. -/
  hApp : HANDLE
  /-- Whether the hidden message window still exists. -/
  window : Bool
  deriving DecidableEq

/-- A window message: `uMsg`, `wParam`, `lParam`. -/
structure MSG where
  uMsg : Nat
  wParam : Nat
  lParam : Nat
  deriving DecidableEq

/-- One message taken from the queue, with what the environment answers while
it is handled. -/
structure Input where
  /-- The message. -/
  msg : MSG
  /-- What the confirmation `MessageBox` returns if one is shown (`IDYES`,
  `IDNO`, or 0 on failure). -/
  answer : Nat
  /-- Whether `TerminateProcess` succeeds if it is called. -/
  terminated : Bool
  deriving DecidableEq

/-- The function `terminateProcess` (lines 97-100): one `TerminateProcess(::hApp, 99)`; the
result of the call (`_terminated`) is discarded. -/
def terminateProcess (st : State) (_terminated : Bool) : List Effect :=
  [Effect.TerminateProcess st.hApp 99]

/-- The system's `DefWindowProc`, as far as this window is concerned: it
answers `WM_CLOSE` by destroying the window and does nothing visible for the
other messages. -/
def DefWindowProc (st : State) (hWnd : HWND) (msg : MSG) : List Effect × State :=
  if msg.uMsg = WM_CLOSE then
    ([Effect.DestroyWindow (some hWnd)], { st with window := false })
  else ([], st)

/-- The text of the confirmation of `IDC_KILL` (line 168). -/
def confirmKill : Effect :=
  Effect.MessageBox "Confirm" "Are you sure you want to terminate the application?"

/-- The text of the confirmation of `IDC_EXIT` (line 173). -/
def confirmExit : Effect :=
  Effect.MessageBox "Confirm"
    "Are you sure you want to remove this icon?  You will no longer be able to use it to terminate the application."

/-- The `switch (uMsg)` of lines 164-196. -/
def handleMessage (st : State) (hWnd : HWND) (inp : Input) : List Effect × State :=
  if inp.msg.uMsg = WM_COMMAND then
    if inp.msg.wParam = IDC_KILL then
      if inp.answer = IDYES then (confirmKill :: terminateProcess st inp.terminated, st)
      else ([confirmKill], st)
    else if inp.msg.wParam = IDC_EXIT then
      if inp.answer = IDYES then
        ([confirmExit, Effect.DestroyWindow (some hWnd)], { st with window := false })
      else ([confirmExit], st)
    else ([], st)
  else if inp.msg.uMsg = TRAY_MSG then
    if inp.msg.lParam = WM_RBUTTONDOWN then
      ([Effect.TrackPopupMenuEx
          [(IDC_KILL, "Terminate application"), (IDC_EXIT, "Remove this icon")],
        Effect.PostMessage (some hWnd) WM_NULL], st)
    else ([], st)
  else ([], st)

/-- The function `windowProc` (lines 162-198): the `switch`, then `DefWindowProc` on the
same message. -/
def windowProc (st : State) (hWnd : HWND) (inp : Input) : List Effect × State :=
  let handled := handleMessage st hWnd inp
  let dflt := DefWindowProc handled.2 hWnd inp.msg
  (handled.1 ++ dflt.1, dflt.2)

/-- The message loop of lines 307-311.  `GetMessage` on `hWndHidden` delivers
the next queued message while the window exists and fails (returns -1, ending
the loop) once it has been destroyed; with an empty queue it blocks.  The
value is the calls made and whether the loop ended. -/
def messageLoop (hWnd : HWND) : State → List Input → List Effect × Bool
  | _, [] => ([], false)
  | st, inp :: rest =>
    let r := windowProc st hWnd inp
    if r.2.window then
      let r' := messageLoop hWnd r.2 rest
      (r.1 ++ r'.1, r'.2)
    else (r.1, true)

/-! ## Startup and teardown: `WinMain` (lines 200-326) -/

/-- A token returned by `strtok`: never empty. -/
structure Token where
  chars : List Char
  nonempty : chars.length > 0

/-- What the environment answers to one run of the program. -/
structure Env where
  /-- The first token of the command line (`NULL` is `none`). -/
  targetExe : Option Token
  /-- The second token of the command line. -/
  trayIconFile : Option Token
  /-- The result of `LoadLibrary("PSAPI.DLL")`. -/
  hPS : Option HANDLE
  /-- Whether `GetProcAddress` finds `EnumProcesses`. -/
  hasEnumProcesses : Bool
  /-- Whether `GetProcAddress` finds `GetProcessImageFileNameA`. -/
  hasGetProcessImageFileName : Bool
  /-- The result of `LoadImage` on the icon file. -/
  hTrayIcon : Option HANDLE
  /-- The processes the system has when `lookupProcess` is called after
  `waited` sleeps. -/
  running : Nat → List Process
  /-- The result of `RegisterClass` (0 is failure). -/
  aWndClass : Nat
  /-- The result of `CreateWindowEx`, which the source does not check. -/
  hWndHidden : Option HWND
  /-- The result of `CreateEvent`. -/
  hQuitEvent : Option HANDLE
  /-- The result of `CreateThread`. -/
  hThread : Option HANDLE
  /-- The result of `Shell_NotifyIcon(NIM_ADD, ...)`. -/
  trayAdded : Bool
  /-- The messages `GetMessage` delivers, in order. -/
  queue : List Input

/-- One run of `WinMain`: the calls made and the exit code; `none` when the
run never returns (it blocks in `GetMessage`). -/
structure Run where
  trace : List Effect
  exit : Option Int
  deriving DecidableEq

/-- The loop of lines 240-244.  `waited` is the source's counter and
`remaining` is `WAIT_SECS - waited`, so that `waited < WAIT_SECS` is
`remaining > 0`; the call of `lookupProcess` comes before that test. -/
def waitForTarget (targetExe : Token) (running : Nat → List Process) :
    Nat → Nat → List Effect × Option HANDLE
  | 0, waited => lookupProcess targetExe.chars targetExe.nonempty (running waited)
  | remaining + 1, waited =>
    let r := lookupProcess targetExe.chars targetExe.nonempty (running waited)
    match r.2 with
    | some hApp => (r.1, some hApp)
    | none =>
      let r' := waitForTarget targetExe running remaining (waited + 1)
      (r.1 ++ Effect.Sleep 1000 :: r'.1, r'.2)

/-- The usage text of lines 206-210. -/
def usage : String :=
  "KillApp: Monitor a Windows program via a tray icon,\nand provide a right-click menu to forcefully terminate it.\nhttp://github.com/adam-nielsen/killapp\n\nUsage: killapp target.exe trayicon.ico"

/-- The message shown when the icon file cannot be loaded (lines 235-237). -/
def iconError (hTrayIcon : Option HANDLE) : List Effect :=
  match hTrayIcon with
  | none => [Effect.showSystemError "Couldn't load icon file \"%%s\": %1"]
  | some _ => []

/-- The clean-up of lines 313-324. -/
def teardown (hApp hQuitEvent hThread : HANDLE) (hWndHidden : HWND)
    (hTrayIcon : Option HANDLE) : List Effect :=
  [Effect.SignalObjectAndWait hQuitEvent hThread 2000,
   Effect.CloseHandle hThread,
   Effect.CloseHandle hQuitEvent,
   Effect.Shell_NotifyIcon NIM_DELETE,
   Effect.DestroyWindow (some hWndHidden),
   Effect.UnregisterClass] ++
  (match hTrayIcon with
   | some hIcon => [Effect.DestroyIcon hIcon]
   | none => []) ++
  [Effect.CloseHandle hApp]

/-- Lines 247-325 of `WinMain`, entered once `::hApp` is not `NULL`.  The
result of `CreateWindowEx` is not checked by the source: when it is `NULL` no
window exists whose destruction could end the message loop, and the run does
not return.  The thread started by `CreateThread` runs `waitThread`
concurrently; what it posts reaches this function through the queue. -/
def monitor (env : Env) (hApp : HANDLE) : Run :=
  if env.aWndClass = 0 then
    ⟨[Effect.RegisterClass,
      Effect.showSystemError "Could not register window class: %1"], some 1⟩
  else
    match env.hQuitEvent with
    | none =>
      ⟨[Effect.RegisterClass, Effect.CreateWindowEx, Effect.CreateEvent,
        Effect.showSystemError "Could not create quit event: %1"], some 3⟩
    | some hQuitEvent =>
      match env.hThread with
      | none =>
        ⟨[Effect.RegisterClass, Effect.CreateWindowEx, Effect.CreateEvent,
          Effect.CreateThread,
          Effect.showSystemError "Cannot create monitoring thread: %1"], some 3⟩
      | some hThread =>
        let started := [Effect.RegisterClass, Effect.CreateWindowEx, Effect.CreateEvent,
          Effect.CreateThread, Effect.Shell_NotifyIcon NIM_ADD]
        if env.trayAdded = false then
          ⟨started ++ [Effect.MessageBox "Error" "Unable to add tray icon."], some 3⟩
        else
          match env.hWndHidden with
          | none => ⟨started, none⟩
          | some hWndHidden =>
            let loop := messageLoop hWndHidden ⟨hApp, true⟩ env.queue
            if loop.2 then
              ⟨started ++ loop.1 ++
                teardown hApp hQuitEvent hThread hWndHidden env.hTrayIcon, some 0⟩
            else ⟨started ++ loop.1, none⟩

/-- The function `WinMain` (lines 200-326); its second half is `monitor`. -/
def WinMain (env : Env) : Run :=
  match env.targetExe, env.trayIconFile with
  | some targetExe, some _ =>
    match env.hPS with
    | none => ⟨[Effect.showSystemError "Unable to load PSAPI.DLL: %1"], some 1⟩
    | some _ =>
      if env.hasEnumProcesses = false then
        ⟨[Effect.showSystemError "EnumProcesses() not found in PSAPI.DLL: %1"], some 1⟩
      else if env.hasGetProcessImageFileName = false then
        ⟨[Effect.showSystemError "GetProcessImageFileName() not found in PSAPI.DLL: %1"],
          some 1⟩
      else
        let found := waitForTarget targetExe env.running WAIT_SECS 0
        match found.2 with
        | none => ⟨iconError env.hTrayIcon ++ found.1, some 2⟩
        | some hApp =>
          let r := monitor env hApp
          ⟨iconError env.hTrayIcon ++ found.1 ++ r.trace, r.exit⟩
  | _, _ => ⟨[Effect.MessageBox "Error" usage], some 1⟩

/-! ## Reference notions used to state the claims -/

/-- Case-insensitive "ends with": the last `suffix.length` characters of
`path` equal `suffix` up to ASCII case (so a path equal to the suffix up to
case ends with it). -/
def endsWithCI (suffix path : List Char) : Bool :=
  decide (suffix.length ≤ path.length) &&
    decide ((path.drop (path.length - suffix.length)).map Char.toLower = suffix.map Char.toLower)

/-- The handle of a process that can be opened and whose canonical image path
ends with `suffix` ignoring case; `none` for any other process. -/
def candidate (suffix : List Char) (p : Process) : Option HANDLE :=
  match p.hProc, p.image with
  | some h, some path => if endsWithCI suffix path then some h else none
  | _, _ => none

/-- The handle of a process the source accepts: it can be opened, its path is
strictly longer than `suffix` and ends with it ignoring case. -/
def strictCandidate (suffix : List Char) (p : Process) : Option HANDLE :=
  match p.hProc, p.image with
  | some h, some path =>
    if decide (suffix.length < path.length) && endsWithCI suffix path then some h else none
  | _, _ => none

/-- The trace of the startup loop when no attempt finds the target: the first
call of `lookupProcess`, then `sleeps` times a one-second sleep followed by the
next call. -/
def retryTrace (targetExe : Token) (running : Nat → List Process) (waited : Nat) :
    Nat → List Effect
  | 0 => (lookupProcess targetExe.chars targetExe.nonempty (running waited)).1
  | sleeps + 1 =>
    (lookupProcess targetExe.chars targetExe.nonempty (running waited)).1 ++
      Effect.Sleep 1000 :: retryTrace targetExe running (waited + 1) sleeps

/-- The target name `\test.exe`. -/
def sampleTarget : Token := ⟨"\\test.exe".toList, by decide⟩

/-- The icon file name `app.ico`. -/
def sampleIcon : Token := ⟨"app.ico".toList, by decide⟩

/-- A run in which every startup step succeeds, with the given process tables
and message queue. -/
def sampleEnv (running : Nat → List Process) (queue : List Input) : Env where
  targetExe := some sampleTarget
  trayIconFile := some sampleIcon
  hPS := some 10
  hasEnumProcesses := true
  hasGetProcessImageFileName := true
  hTrayIcon := some 20
  running := running
  aWndClass := 49152
  hWndHidden := some 30
  hQuitEvent := some 40
  hThread := some 50
  trayAdded := true
  queue := queue

/-- A process table without the target: one other process. -/
def otherProcess : List Process :=
  [⟨4, some 60, some "\\Device\\HarddiskVolume1\\WINDOWS\\explorer.exe".toList⟩]

/-- A process table with the target behind a process that cannot be opened. -/
def withTarget : List Process :=
  [⟨4, none, none⟩, ⟨1234, some 100, some "\\Device\\HarddiskVolume1\\app\\test.exe".toList⟩]

/-- A shutdown notification: `WM_CLOSE` posted to some window. -/
def isShutdownNotification : Effect → Bool
  | Effect.PostMessage _ uMsg => uMsg == WM_CLOSE
  | _ => false

/-- A forced-termination request. -/
def isTerminationRequest : Effect → Bool
  | Effect.TerminateProcess _ _ => true
  | _ => false

/-- An error shown to the user: `showSystemError`, or a `MessageBox` with the
caption `Error`. -/
def isErrorReport : Effect → Bool
  | Effect.showSystemError _ => true
  | Effect.MessageBox caption _ => caption == "Error"
  | _ => false

/-- The messages said to begin shutdown: "Remove this icon" confirmed with
Yes, or `WM_CLOSE`. -/
def beginsShutdown (inp : Input) : Bool :=
  (inp.msg.uMsg == WM_COMMAND && inp.msg.wParam == IDC_EXIT && inp.answer == IDYES) ||
    inp.msg.uMsg == WM_CLOSE

/-- Sample thread data. -/
def sampleThreadData : THREAD_DATA := ⟨100, some 30, 40⟩

/-- The menu command "Terminate application", confirmed with Yes, where the
termination request fails. -/
def failedKill : Input := ⟨⟨WM_COMMAND, IDC_KILL, 0⟩, IDYES, false⟩

/-- Every startup step of `WinMain` succeeds: both arguments are given, PSAPI
and its two functions are found, the startup loop finds `hApp`, and the window
class, the window, the quit event, the thread and the tray icon are created. -/
structure Started (env : Env) (targetExe : Token) (hApp hQuitEvent hThread : HANDLE)
    (hWndHidden : HWND) : Prop where
  hasTarget : env.targetExe = some targetExe
  hasIcon : env.trayIconFile ≠ none
  hasPsapi : env.hPS ≠ none
  hasEnum : env.hasEnumProcesses = true
  hasImage : env.hasGetProcessImageFileName = true
  found : (waitForTarget targetExe env.running WAIT_SECS 0).2 = some hApp
  registered : env.aWndClass ≠ 0
  hasWindow : env.hWndHidden = some hWndHidden
  hasEvent : env.hQuitEvent = some hQuitEvent
  hasThread : env.hThread = some hThread
  hasTray : env.trayAdded = true

/-- The calls of lines 247-305 when all of them succeed. -/
def startedCalls : List Effect :=
  [Effect.RegisterClass, Effect.CreateWindowEx, Effect.CreateEvent,
    Effect.CreateThread, Effect.Shell_NotifyIcon NIM_ADD]

/-- A right-click on the tray icon. -/
def rightClick : Input := ⟨⟨TRAY_MSG, 0, WM_RBUTTONDOWN⟩, 0, true⟩

/-- The shutdown notification posted by the monitor thread. -/
def closeMessage : Input := ⟨⟨WM_CLOSE, 0, 0⟩, 0, true⟩

/-- The startup steps of `WinMain` that can make it return early, as the
exit-code table of the specification names them. -/
inductive StartupStep where
  | arguments
  | loadPsapi
  | resolveEnumProcesses
  | resolveGetProcessImageFileName
  | locateTarget
  | registerClass
  | createQuitEvent
  | createThread
  | addTrayIcon
  deriving DecidableEq

/-- Whether a startup step fails in the given environment; locating the
target fails when the startup loop ends without a handle. -/
def stepFails (env : Env) : StartupStep → Bool
  | StartupStep.arguments => env.targetExe.isNone || env.trayIconFile.isNone
  | StartupStep.loadPsapi => env.hPS.isNone
  | StartupStep.resolveEnumProcesses => !env.hasEnumProcesses
  | StartupStep.resolveGetProcessImageFileName => !env.hasGetProcessImageFileName
  | StartupStep.locateTarget =>
    match env.targetExe with
    | some targetExe => (waitForTarget targetExe env.running WAIT_SECS 0).2.isNone
    | none => true
  | StartupStep.registerClass => env.aWndClass == 0
  | StartupStep.createQuitEvent => env.hQuitEvent.isNone
  | StartupStep.createThread => env.hThread.isNone
  | StartupStep.addTrayIcon => !env.trayAdded

/-- The startup steps in the order `WinMain` takes them. -/
def startupSteps : List StartupStep :=
  [StartupStep.arguments, StartupStep.loadPsapi, StartupStep.resolveEnumProcesses,
    StartupStep.resolveGetProcessImageFileName, StartupStep.locateTarget,
    StartupStep.registerClass, StartupStep.createQuitEvent, StartupStep.createThread,
    StartupStep.addTrayIcon]

/-- The first startup step that fails, if any. -/
def firstFailure (env : Env) : Option StartupStep :=
  startupSteps.find? (stepFails env)

/-- The exit-code table of the specification: 1 for a usage or setup failure,
2 when the target is not located, 3 for a resource-creation failure. -/
def exitCodeOf : StartupStep → Int
  | StartupStep.arguments => 1
  | StartupStep.loadPsapi => 1
  | StartupStep.resolveEnumProcesses => 1
  | StartupStep.resolveGetProcessImageFileName => 1
  | StartupStep.registerClass => 1
  | StartupStep.locateTarget => 2
  | StartupStep.createQuitEvent => 3
  | StartupStep.createThread => 3
  | StartupStep.addTrayIcon => 3

/-- The message loop ends: the window was created and some queued message
begins shutdown. -/
def loopEnds (env : Env) : Bool :=
  env.hWndHidden.isSome && env.queue.any beginsShutdown

/-- A call that yields a new process handle. -/
def opensHandle : Effect → Bool
  | Effect.OpenProcess _ (some _) => true
  | _ => false

/-- A `CloseHandle` call. -/
def closesHandle : Effect → Bool
  | Effect.CloseHandle _ => true
  | _ => false

/-- The process handles held after one more call: `OpenProcess` adds the
handle it returns, `CloseHandle` removes the handle it is given. -/
def liveStep (held : List HANDLE) : Effect → List HANDLE
  | Effect.OpenProcess _ (some h) => h :: held
  | Effect.CloseHandle h => held.erase h
  | _ => held

/-- The process handles held after a sequence of calls. -/
def live : List HANDLE → List Effect → List HANDLE
  | held, [] => held
  | held, e :: rest => live (liveStep held e) rest

/-- At most one process handle is held before and after every call of the
sequence. -/
def atMostOneLive : List HANDLE → List Effect → Bool
  | held, [] => decide (held.length ≤ 1)
  | held, e :: rest => decide (held.length ≤ 1) && atMostOneLive (liveStep held e) rest

/-- A run that finds the target and then fails to register the window class. -/
def registerFailsEnv : Env :=
  { sampleEnv (fun _ => withTarget) [] with aWndClass := 0 }

/-- The comparison of lines 81-89 on a path whose query succeeded, `lenData`
being the length of the path written. -/
def acceptsPath (targetName path : List Char) : Bool :=
  matchesTarget targetName path.length path

/-! ## String comparison -/

theorem lowerCode_eq_iff (a b : Char) : lowerCode a = lowerCode b ↔ a.toLower = b.toLower := by
  unfold lowerCode
  constructor
  · intro h
    have h' : a.toLower.toNat = b.toLower.toNat := by exact_mod_cast h
    apply Char.ext
    apply UInt32.ext
    exact h'
  · intro h
    rw [h]

theorem strcmpi_eq_zero_iff (a b : List Char) (hlen : a.length = b.length) :
    strcmpi a b = 0 ↔ a.map Char.toLower = b.map Char.toLower := by
  induction a generalizing b with
  | nil =>
    cases b with
    | nil => simp [strcmpi]
    | cons y ys => simp at hlen
  | cons x xs ih =>
    cases b with
    | nil => simp at hlen
    | cons y ys =>
      have hl : xs.length = ys.length := by simpa using hlen
      by_cases hxy : lowerCode x = lowerCode y
      · have hc : x.toLower = y.toLower := (lowerCode_eq_iff x y).1 hxy
        simp [strcmpi, hxy, ih ys hl, hc]
      · have hc : ¬ x.toLower = y.toLower := fun h => hxy ((lowerCode_eq_iff x y).2 h)
        have hne : lowerCode x - lowerCode y ≠ 0 := fun h => hxy (sub_eq_zero.1 h)
        simp [strcmpi, hxy, hc, hne]

theorem acceptsPath_eq (targetName path : List Char) :
    acceptsPath targetName path =
      (decide (targetName.length < path.length) && endsWithCI targetName path) := by
  unfold acceptsPath matchesTarget endsWithCI
  by_cases hlt : targetName.length < path.length
  · have hpos : path.length > 0 := by omega
    have hle : targetName.length ≤ path.length := by omega
    have hl : targetName.length = (path.drop (path.length - targetName.length)).length := by
      simp; omega
    have h := strcmpi_eq_zero_iff targetName _ hl
    by_cases hc : strcmpi targetName (path.drop (path.length - targetName.length)) = 0
    · have hm := h.1 hc
      simp [hlt, hpos, hle, hc, hm]
    · have hm : ¬ (path.drop (path.length - targetName.length)).map Char.toLower
          = targetName.map Char.toLower := fun e => hc (h.2 e.symm)
      simp only [List.map_drop] at hm
      simp [hlt, hpos, hle, hc, hm]
  · simp [hlt]

theorem lookupLoop_result (targetName : List Char) (procs : List Process) :
    (lookupLoop targetName procs).2 = procs.findSome? (strictCandidate targetName) := by
  induction procs with
  | nil => rfl
  | cons p rest ih =>
    rcases p with ⟨pid, hProc, image⟩
    cases hProc with
    | none => simp [lookupLoop, List.findSome?_cons, strictCandidate, ih]
    | some h =>
      cases image with
      | none =>
        simp [lookupLoop, List.findSome?_cons, strictCandidate, ih, matchesTarget,
          GetProcessImageFileName]
      | some path =>
        have hacc := acceptsPath_eq targetName path
        unfold acceptsPath at hacc
        by_cases hm : matchesTarget targetName path.length path = true
        · have hs : (decide (targetName.length < path.length) &&
              endsWithCI targetName path) = true := by rw [← hacc]; exact hm
          simp [lookupLoop, List.findSome?_cons, strictCandidate, GetProcessImageFileName,
            procNameOf, hm, hs]
        · have hm' : matchesTarget targetName path.length path = false := by simpa using hm
          have hs : (decide (targetName.length < path.length) &&
              endsWithCI targetName path) = false := by rw [← hacc]; exact hm'
          simp [lookupLoop, List.findSome?_cons, strictCandidate, GetProcessImageFileName,
            procNameOf, hm', hs, ih]

/-- What `lookupProcess` returns, for every target name and process list: the
handle of the first enumerated process that can be opened and whose path is
strictly longer than the target name and ends with it ignoring case, and
`NULL` when there is none. -/
theorem lookupProcess_result (targetName : List Char) (hlen : targetName.length > 0)
    (running : List Process) :
    (lookupProcess targetName hlen running).2 =
      (running.take MAX_PROCESS_IDS).findSome? (strictCandidate targetName) := by
  simp [lookupProcess, lookupLoop_result]

/-- C1, at the failing input: the target name is the whole device path of the
only running process (up to case), which can be opened; `lookupProcess`
returns `NULL`, although that process is the first one that can be opened and
whose path ends with the target name ignoring case. -/
theorem lookupProcess_misses_path_equal_to_target :
    (lookupProcess "\\Device\\HarddiskVolume1\\app\\test.exe".toList (by decide)
      [⟨1234, some 100, some "\\Device\\HarddiskVolume1\\APP\\Test.exe".toList⟩]).2 = none ∧
    List.findSome? (candidate "\\Device\\HarddiskVolume1\\app\\test.exe".toList)
      [⟨1234, some 100, some "\\Device\\HarddiskVolume1\\APP\\Test.exe".toList⟩] = some 100 := by
  constructor <;> decide

/-- What the comparison does for every directory prefix `d`: with the target `\test.exe` it accepts `d\test.exe` exactly when
`d` is not empty and rejects `d\mytest.exe`; with the target `test.exe` it
accepts both. -/
theorem acceptsPath_test_exe (d : List Char) :
    acceptsPath "\\test.exe".toList (d ++ "\\test.exe".toList) = !d.isEmpty ∧
    acceptsPath "\\test.exe".toList (d ++ "\\mytest.exe".toList) = false ∧
    acceptsPath "test.exe".toList (d ++ "\\test.exe".toList) = true ∧
    acceptsPath "test.exe".toList (d ++ "\\mytest.exe".toList) = true := by
  have e1 : (d ++ "\\test.exe".toList).length - "\\test.exe".toList.length = d.length + 0 := by
    simp
  have e2 : (d ++ "\\mytest.exe".toList).length - "\\test.exe".toList.length = d.length + 2 := by
    simp
  have e3 : (d ++ "\\test.exe".toList).length - "test.exe".toList.length = d.length + 1 := by
    simp
  have e4 : (d ++ "\\mytest.exe".toList).length - "test.exe".toList.length = d.length + 3 := by
    simp
  refine ⟨?_, ?_, ?_, ?_⟩
  · rw [acceptsPath_eq]
    unfold endsWithCI
    rw [e1, List.drop_append]
    cases d <;> simp
  · rw [acceptsPath_eq]
    unfold endsWithCI
    rw [e2, List.drop_append]
    have h : decide (List.map Char.toLower (List.drop 2 "\\mytest.exe".toList) =
        List.map Char.toLower "\\test.exe".toList) = false := by decide
    rw [h]
    simp
  · rw [acceptsPath_eq]
    unfold endsWithCI
    rw [e3, List.drop_append]
    have h : decide (List.map Char.toLower (List.drop 1 "\\test.exe".toList) =
        List.map Char.toLower "test.exe".toList) = true := by decide
    rw [h]
    simp
  · rw [acceptsPath_eq]
    unfold endsWithCI
    rw [e4, List.drop_append]
    have h : decide (List.map Char.toLower (List.drop 3 "\\mytest.exe".toList) =
        List.map Char.toLower "test.exe".toList) = true := by decide
    rw [h]
    simp

/-- The boundary of the comparison: the path `\test.exe` itself, which no
device-rooted image path is, ends with the target `\test.exe` and is rejected,
for the reason shown for `lookupProcess` above. -/
theorem acceptsPath_rejects_path_equal_to_target :
    acceptsPath "\\test.exe".toList ([] ++ "\\test.exe".toList) = false ∧
    endsWithCI "\\test.exe".toList ([] ++ "\\test.exe".toList) = true := by
  constructor <;> decide

/-- C2: for every directory prefix `d` of an image path (image paths are
device-rooted, of the form `\Device\HarddiskVolume1\...`, so `d` is not
empty), the comparison of `lookupProcess` with the target `\test.exe` accepts
the path `d\test.exe` and rejects the path `d\mytest.exe`, and with the
target `test.exe` it accepts both. -/
theorem acceptsPath_separator_avoids_collision (d : List Char) (hd : d ≠ []) :
    acceptsPath "\\test.exe".toList (d ++ "\\test.exe".toList) = true ∧
    acceptsPath "\\test.exe".toList (d ++ "\\mytest.exe".toList) = false ∧
    acceptsPath "test.exe".toList (d ++ "\\test.exe".toList) = true ∧
    acceptsPath "test.exe".toList (d ++ "\\mytest.exe".toList) = true := by
  have h := acceptsPath_test_exe d
  refine ⟨?_, h.2.1, h.2.2.1, h.2.2.2⟩
  rw [h.1]
  cases d with
  | nil => exact absurd rfl hd
  | cons c cs => rfl

/-- C2 at the directory `\Device\HarddiskVolume1\dir`. -/
theorem acceptsPath_separator_avoids_collision_witness :
    "\\Device\\HarddiskVolume1\\dir".toList ≠ [] ∧
    acceptsPath "\\test.exe".toList
      ("\\Device\\HarddiskVolume1\\dir".toList ++ "\\test.exe".toList) = true ∧
    acceptsPath "\\test.exe".toList
      ("\\Device\\HarddiskVolume1\\dir".toList ++ "\\mytest.exe".toList) = false ∧
    acceptsPath "test.exe".toList
      ("\\Device\\HarddiskVolume1\\dir".toList ++ "\\test.exe".toList) = true ∧
    acceptsPath "test.exe".toList
      ("\\Device\\HarddiskVolume1\\dir".toList ++ "\\mytest.exe".toList) = true :=
  ⟨by decide,
    acceptsPath_separator_avoids_collision "\\Device\\HarddiskVolume1\\dir".toList
      (by decide)⟩

/-! ## Startup loop -/

theorem lookupLoop_count_enum (targetName : List Char) (procs : List Process) :
    (lookupLoop targetName procs).1.count Effect.EnumProcesses = 0 := by
  induction procs with
  | nil => rfl
  | cons p rest ih =>
    rcases p with ⟨pid, hProc, image⟩
    cases hProc with
    | none => simpa [lookupLoop, List.count_cons] using ih
    | some h =>
      by_cases hm : matchesTarget targetName
          (GetProcessImageFileName ⟨pid, some h, image⟩) (procNameOf ⟨pid, some h, image⟩) = true
      · simp [lookupLoop, hm, List.count_cons]
      · simpa [lookupLoop, hm, List.count_cons] using ih

theorem lookupLoop_count_sleep (targetName : List Char) (procs : List Process) :
    (lookupLoop targetName procs).1.count (Effect.Sleep 1000) = 0 := by
  induction procs with
  | nil => rfl
  | cons p rest ih =>
    rcases p with ⟨pid, hProc, image⟩
    cases hProc with
    | none => simpa [lookupLoop, List.count_cons] using ih
    | some h =>
      by_cases hm : matchesTarget targetName
          (GetProcessImageFileName ⟨pid, some h, image⟩) (procNameOf ⟨pid, some h, image⟩) = true
      · simp [lookupLoop, hm, List.count_cons]
      · simpa [lookupLoop, hm, List.count_cons] using ih

theorem lookupProcess_count_enum (targetName : List Char) (hlen : targetName.length > 0)
    (running : List Process) :
    (lookupProcess targetName hlen running).1.count Effect.EnumProcesses = 1 := by
  simp [lookupProcess, List.count_cons, lookupLoop_count_enum]

theorem lookupProcess_count_sleep (targetName : List Char) (hlen : targetName.length > 0)
    (running : List Process) :
    (lookupProcess targetName hlen running).1.count (Effect.Sleep 1000) = 0 := by
  simp [lookupProcess, List.count_cons, lookupLoop_count_sleep]

theorem waitForTarget_count_enum_le (targetExe : Token) (running : Nat → List Process)
    (remaining waited : Nat) :
    (waitForTarget targetExe running remaining waited).1.count Effect.EnumProcesses
      ≤ remaining + 1 := by
  induction remaining generalizing waited with
  | zero => simp [waitForTarget, lookupProcess_count_enum]
  | succ n ih =>
    have := ih (waited + 1)
    simp only [waitForTarget]
    split
    · simp [lookupProcess_count_enum]
    · simp [List.count_cons, lookupProcess_count_enum]
      omega

theorem waitForTarget_never_found (targetExe : Token) (running : Nat → List Process)
    (remaining waited : Nat)
    (hnone : ∀ n, waited ≤ n → n ≤ waited + remaining →
      (lookupProcess targetExe.chars targetExe.nonempty (running n)).2 = none) :
    waitForTarget targetExe running remaining waited =
      (retryTrace targetExe running waited remaining, none) := by
  induction remaining generalizing waited with
  | zero =>
    simp only [waitForTarget, retryTrace]
    rw [← hnone waited (Nat.le_refl _) (by omega)]
  | succ n ih =>
    have h0 := hnone waited (Nat.le_refl _) (by omega)
    have hrest := ih (waited + 1) (fun m h1 h2 => hnone m (by omega) (by omega))
    unfold waitForTarget
    simp only [h0, hrest, retryTrace]

theorem retryTrace_counts (targetExe : Token) (running : Nat → List Process)
    (waited sleeps : Nat) :
    (retryTrace targetExe running waited sleeps).count Effect.EnumProcesses = sleeps + 1 ∧
    (retryTrace targetExe running waited sleeps).count (Effect.Sleep 1000) = sleeps := by
  induction sleeps generalizing waited with
  | zero => simp [retryTrace, lookupProcess_count_enum, lookupProcess_count_sleep]
  | succ n ih =>
    have := ih (waited + 1)
    simp [retryTrace, List.count_cons, lookupProcess_count_enum, lookupProcess_count_sleep,
      this.1, this.2]
    omega

theorem windowProc_count_enum (st : State) (hWnd : HWND) (inp : Input) :
    (windowProc st hWnd inp).1.count Effect.EnumProcesses = 0 := by
  unfold windowProc handleMessage DefWindowProc terminateProcess confirmKill confirmExit
  split_ifs <;> simp [List.count_cons]

theorem messageLoop_count_enum (hWnd : HWND) (st : State) (queue : List Input) :
    (messageLoop hWnd st queue).1.count Effect.EnumProcesses = 0 := by
  induction queue generalizing st with
  | nil => rfl
  | cons inp rest ih =>
    simp only [messageLoop]
    split
    · simp [windowProc_count_enum, ih]
    · simp [windowProc_count_enum]

theorem teardown_count_enum (hApp hQuitEvent hThread : HANDLE) (hWndHidden : HWND)
    (hTrayIcon : Option HANDLE) :
    (teardown hApp hQuitEvent hThread hWndHidden hTrayIcon).count Effect.EnumProcesses = 0 := by
  cases hTrayIcon <;> simp [teardown, List.count_cons]

theorem monitor_count_enum (env : Env) (hApp : HANDLE) :
    (monitor env hApp).trace.count Effect.EnumProcesses = 0 := by
  unfold monitor
  split
  · simp [List.count_cons]
  · split
    · simp [List.count_cons]
    · split
      · simp [List.count_cons]
      · split
        · simp [List.count_cons]
        · split
          · simp [List.count_cons]
          · dsimp only
            split
            · simp [List.count_cons, messageLoop_count_enum, teardown_count_enum]
            · simp [List.count_cons, messageLoop_count_enum]

theorem iconError_count_enum (hTrayIcon : Option HANDLE) :
    (iconError hTrayIcon).count Effect.EnumProcesses = 0 := by
  cases hTrayIcon <;> simp [iconError, List.count_cons]

theorem iconError_count_sleep (hTrayIcon : Option HANDLE) :
    (iconError hTrayIcon).count (Effect.Sleep 1000) = 0 := by
  cases hTrayIcon <;> simp [iconError, List.count_cons]

/-- What `WinMain` does once the arguments and PSAPI are in place and the startup loop
has not found the target. -/
theorem WinMain_not_found (env : Env) (targetExe icon : Token) (hPS : HANDLE)
    (ht : env.targetExe = some targetExe) (hi : env.trayIconFile = some icon)
    (hp : env.hPS = some hPS) (he : env.hasEnumProcesses = true)
    (hg : env.hasGetProcessImageFileName = true)
    (hf : (waitForTarget targetExe env.running WAIT_SECS 0).2 = none) :
    WinMain env =
      ⟨iconError env.hTrayIcon ++ (waitForTarget targetExe env.running WAIT_SECS 0).1,
        some 2⟩ := by
  simp only [WinMain, ht, hi, hp, he, hg, hf]
  simp

/-- What `WinMain` does once the arguments and PSAPI are in place and the startup loop
has found the target. -/
theorem WinMain_found (env : Env) (targetExe icon : Token) (hPS hApp : HANDLE)
    (ht : env.targetExe = some targetExe) (hi : env.trayIconFile = some icon)
    (hp : env.hPS = some hPS) (he : env.hasEnumProcesses = true)
    (hg : env.hasGetProcessImageFileName = true)
    (hf : (waitForTarget targetExe env.running WAIT_SECS 0).2 = some hApp) :
    WinMain env =
      ⟨iconError env.hTrayIcon ++ (waitForTarget targetExe env.running WAIT_SECS 0).1 ++
        (monitor env hApp).trace, (monitor env hApp).exit⟩ := by
  simp only [WinMain, ht, hi, hp, he, hg, hf]
  simp

theorem WinMain_count_enum_le (env : Env) :
    (WinMain env).trace.count Effect.EnumProcesses ≤ WAIT_SECS + 1 := by
  cases ht : env.targetExe with
  | none => simp [WinMain, ht, List.count_cons]
  | some targetExe =>
    cases hi : env.trayIconFile with
    | none => simp [WinMain, ht, hi, List.count_cons]
    | some icon =>
      cases hp : env.hPS with
      | none => simp [WinMain, ht, hi, hp, List.count_cons]
      | some hPS =>
        cases he : env.hasEnumProcesses with
        | false => simp [WinMain, ht, hi, hp, he, List.count_cons]
        | true =>
          cases hg : env.hasGetProcessImageFileName with
          | false => simp [WinMain, ht, hi, hp, he, hg, List.count_cons]
          | true =>
            have hle := waitForTarget_count_enum_le targetExe env.running WAIT_SECS 0
            cases hf : (waitForTarget targetExe env.running WAIT_SECS 0).2 with
            | none =>
              rw [WinMain_not_found env targetExe icon hPS ht hi hp he hg hf]
              simp only [List.count_append, iconError_count_enum]
              omega
            | some hApp =>
              rw [WinMain_found env targetExe icon hPS hApp ht hi hp he hg hf]
              simp only [List.count_append, iconError_count_enum, monitor_count_enum]
              omega

/-- C3 as amended: in no run does `WinMain` call `lookupProcess` more than
eleven times; and when both arguments are given, PSAPI and its two functions
are found and none of the calls of `lookupProcess` (after 0 to 10 sleeps)
finds the target, the run consists of
the icon error (if any) followed by exactly eleven calls of `lookupProcess`
with a one-second sleep between consecutive calls (ten sleeps), and `WinMain`
returns 2. -/
theorem WinMain_lookup_attempts (env : Env) :
    (WinMain env).trace.count Effect.EnumProcesses ≤ 11 ∧
    ∀ targetExe icon, env.targetExe = some targetExe → env.trayIconFile = some icon →
      env.hPS ≠ none → env.hasEnumProcesses = true → env.hasGetProcessImageFileName = true →
      (∀ n, n ≤ 10 →
        (lookupProcess targetExe.chars targetExe.nonempty (env.running n)).2 = none) →
        (WinMain env).trace =
          iconError env.hTrayIcon ++ retryTrace targetExe env.running 0 10 ∧
        (WinMain env).trace.count Effect.EnumProcesses = 11 ∧
        (WinMain env).trace.count (Effect.Sleep 1000) = 10 ∧
        (WinMain env).exit = some 2 := by
  refine ⟨WinMain_count_enum_le env, ?_⟩
  intro targetExe icon ht hi hps he hg hnone
  obtain ⟨hp, hp'⟩ : ∃ hp, env.hPS = some hp := Option.ne_none_iff_exists'.1 hps
  have hw := waitForTarget_never_found targetExe env.running WAIT_SECS 0
    (fun n _ h => hnone n (by simpa [WAIT_SECS] using h))
  have hc := retryTrace_counts targetExe env.running 0 10
  have htrace : WinMain env =
      ⟨iconError env.hTrayIcon ++ retryTrace targetExe env.running 0 10, some 2⟩ := by
    rw [WinMain_not_found env targetExe icon hp ht hi hp' he hg (by rw [hw]), hw]
    rfl
  rw [htrace]
  refine ⟨rfl, ?_, ?_, rfl⟩
  · simp only [List.count_append, iconError_count_enum, hc.1]
  · simp only [List.count_append, iconError_count_sleep, hc.2]

/-- The amended C3 at a run where the only running process is not the target. -/
theorem WinMain_lookup_attempts_witness :
    (WinMain (sampleEnv (fun _ => otherProcess) [])).trace.count Effect.EnumProcesses = 11 ∧
    (WinMain (sampleEnv (fun _ => otherProcess) [])).trace.count (Effect.Sleep 1000) = 10 ∧
    (WinMain (sampleEnv (fun _ => otherProcess) [])).exit = some 2 :=
  ((WinMain_lookup_attempts (sampleEnv (fun _ => otherProcess) [])).2
    sampleTarget sampleIcon rfl rfl (by decide) rfl rfl
    (fun _ _ => (by decide :
      (lookupProcess sampleTarget.chars sampleTarget.nonempty otherProcess).2 = none))).2

/-- C3, as stated, fails: in the run where every startup step succeeds and the
only running process is not the target, `lookupProcess` is called eleven times,
which is more than ten. -/
theorem WinMain_more_than_ten_lookups :
    ¬ ((WinMain (sampleEnv (fun _ => otherProcess) [])).trace.count Effect.EnumProcesses
        ≤ 10) := by
  decide

/-! ## The monitor thread -/

/-- C4, as stated, fails: when the wait ends on the quit event (the second
handle, `WAIT_OBJECT_0 + 1`), `waitThread` does post `WM_CLOSE` to the notify
window. -/
theorem waitThread_posts_on_quit_event :
    ¬ ((waitThread sampleThreadData (WAIT_OBJECT_0 + 1)).1.countP isShutdownNotification
        = 0) := by
  decide

/-- C4 as amended: when the wait ends because the quit event was signalled,
`waitThread` shows no error, posts exactly one `WM_CLOSE` to the notify window
and returns 0. -/
theorem waitThread_on_quit_event (threadData : THREAD_DATA) :
    waitThread threadData (WAIT_OBJECT_0 + 1) =
      ([Effect.WaitForMultipleObjects threadData.hApp threadData.hQuitEvent INFINITE,
        Effect.PostMessage threadData.hWndNotify WM_CLOSE], 0) ∧
    (waitThread threadData (WAIT_OBJECT_0 + 1)).1.countP isShutdownNotification = 1 := by
  constructor <;> simp [waitThread, WAIT_OBJECT_0, WAIT_FAILED, isShutdownNotification]

/-- C5: when the wait ends because the target exited (`WAIT_OBJECT_0`) or
because the wait failed (`WAIT_FAILED`), `waitThread` posts exactly one
`WM_CLOSE`, to the notify window, as its last call, and returns 0; for every
wait result it posts at most one shutdown notification. -/
theorem waitThread_posts_once (threadData : THREAD_DATA) :
    ((waitThread threadData WAIT_OBJECT_0).1.countP isShutdownNotification = 1 ∧
      (waitThread threadData WAIT_OBJECT_0).1.getLast? =
        some (Effect.PostMessage threadData.hWndNotify WM_CLOSE) ∧
      (waitThread threadData WAIT_OBJECT_0).2 = 0) ∧
    ((waitThread threadData WAIT_FAILED).1.countP isShutdownNotification = 1 ∧
      (waitThread threadData WAIT_FAILED).1.getLast? =
        some (Effect.PostMessage threadData.hWndNotify WM_CLOSE) ∧
      (waitThread threadData WAIT_FAILED).2 = 0) ∧
    ∀ result, (waitThread threadData result).1.countP isShutdownNotification ≤ 1 := by
  refine ⟨?_, ?_, ?_⟩
  · simp [waitThread, WAIT_OBJECT_0, WAIT_FAILED, isShutdownNotification]
  · simp [waitThread, WAIT_FAILED, isShutdownNotification]
  · intro result
    by_cases h : result = WAIT_FAILED <;>
      simp [waitThread, h, isShutdownNotification, List.countP_cons]

/-! ## The window procedure -/

/-- C6: while handling one message `windowProc` issues a termination request
exactly when the message is the menu command `IDC_KILL` ("Terminate
application") and the confirmation returns `IDYES`; it is then the single
request `TerminateProcess(::hApp, 99)`.  In every other case (a declined
Terminate, "Remove this icon" with either answer, any other message) no
request is issued; and `::hApp` is never changed. -/
theorem windowProc_termination_requests (st : State) (hWnd : HWND) (inp : Input) :
    (windowProc st hWnd inp).1.filter isTerminationRequest =
      (if inp.msg.uMsg = WM_COMMAND ∧ inp.msg.wParam = IDC_KILL ∧ inp.answer = IDYES then
        [Effect.TerminateProcess st.hApp 99]
      else []) ∧
    (windowProc st hWnd inp).2.hApp = st.hApp := by
  unfold windowProc handleMessage DefWindowProc terminateProcess confirmKill confirmExit
  constructor <;> split_ifs <;> simp_all [isTerminationRequest, List.filter_cons]

theorem windowProc_state (st : State) (hWnd : HWND) (inp : Input) :
    (windowProc st hWnd inp).2 =
      if beginsShutdown inp = true then { st with window := false } else st := by
  unfold windowProc handleMessage DefWindowProc beginsShutdown
  split_ifs <;> simp_all [IDC_KILL, IDC_EXIT, WM_COMMAND, WM_CLOSE, TRAY_MSG, WM_USER]

theorem windowProc_destroys_iff (st : State) (hWnd : HWND) (inp : Input) :
    Effect.DestroyWindow (some hWnd) ∈ (windowProc st hWnd inp).1 ↔
      beginsShutdown inp = true := by
  unfold windowProc handleMessage DefWindowProc beginsShutdown terminateProcess
    confirmKill confirmExit
  split_ifs <;> simp_all [IDC_KILL, IDC_EXIT, WM_COMMAND, WM_CLOSE, TRAY_MSG, WM_USER]

theorem beginsShutdown_iff (inp : Input) :
    beginsShutdown inp = true ↔
      (inp.msg.uMsg = WM_COMMAND ∧ inp.msg.wParam = IDC_EXIT ∧ inp.answer = IDYES) ∨
        inp.msg.uMsg = WM_CLOSE := by
  simp [beginsShutdown, and_assoc]

theorem messageLoop_ends (hWnd : HWND) (hApp : HANDLE) (queue : List Input) :
    (messageLoop hWnd ⟨hApp, true⟩ queue).2 = queue.any beginsShutdown := by
  induction queue with
  | nil => rfl
  | cons inp rest ih =>
    simp only [messageLoop, windowProc_state, List.any_cons]
    by_cases h : beginsShutdown inp = true
    · simp [h]
    · simp [h, ih]

theorem messageLoop_stops (hWnd : HWND) (hApp : HANDLE) (pre rest : List Input) (inp : Input)
    (hpre : ∀ i ∈ pre, beginsShutdown i = false) (hinp : beginsShutdown inp = true) :
    messageLoop hWnd ⟨hApp, true⟩ (pre ++ inp :: rest) =
      messageLoop hWnd ⟨hApp, true⟩ (pre ++ [inp]) := by
  induction pre with
  | nil => simp [messageLoop, windowProc_state, hinp]
  | cons p ps ih =>
    have hp : beginsShutdown p = false := hpre p (List.mem_cons_self p ps)
    have hps : ∀ i ∈ ps, beginsShutdown i = false :=
      fun i hi => hpre i (List.mem_cons_of_mem p hi)
    simp [messageLoop, windowProc_state, hp, ih hps]

/-- What `WinMain` does when every startup step succeeds. -/
theorem WinMain_started (env : Env) (targetExe : Token) (hApp hQuitEvent hThread : HANDLE)
    (hWndHidden : HWND) (hs : Started env targetExe hApp hQuitEvent hThread hWndHidden) :
    WinMain env =
      if (messageLoop hWndHidden ⟨hApp, true⟩ env.queue).2 = true then
        ⟨iconError env.hTrayIcon ++ (waitForTarget targetExe env.running WAIT_SECS 0).1 ++
          (startedCalls ++ (messageLoop hWndHidden ⟨hApp, true⟩ env.queue).1 ++
            teardown hApp hQuitEvent hThread hWndHidden env.hTrayIcon), some 0⟩
      else
        ⟨iconError env.hTrayIcon ++ (waitForTarget targetExe env.running WAIT_SECS 0).1 ++
          (startedCalls ++ (messageLoop hWndHidden ⟨hApp, true⟩ env.queue).1), none⟩ := by
  obtain ⟨icon, hi⟩ := Option.ne_none_iff_exists'.1 hs.hasIcon
  obtain ⟨hPS, hp⟩ := Option.ne_none_iff_exists'.1 hs.hasPsapi
  rw [WinMain_found env targetExe icon hPS hApp hs.hasTarget hi hp hs.hasEnum hs.hasImage
    hs.found]
  have hm : monitor env hApp =
      if (messageLoop hWndHidden ⟨hApp, true⟩ env.queue).2 = true then
        ⟨startedCalls ++ (messageLoop hWndHidden ⟨hApp, true⟩ env.queue).1 ++
          teardown hApp hQuitEvent hThread hWndHidden env.hTrayIcon, some 0⟩
      else ⟨startedCalls ++ (messageLoop hWndHidden ⟨hApp, true⟩ env.queue).1, none⟩ := by
    simp only [monitor, hs.registered, hs.hasWindow, hs.hasEvent, hs.hasThread, hs.hasTray,
      startedCalls]
    simp
  rw [hm]
  split <;> rfl

/-- C7: from Running (the window exists), handling one message destroys the
message window, which ends the message loop, exactly when the message is
"Remove this icon" confirmed with Yes or `WM_CLOSE`; a right-click, the
Terminate command with either answer and a declined "Remove this icon" leave
the state as it is.  Once such a message is handled in a run whose startup
succeeded, `WinMain` returns 0 whatever is still queued behind it. -/
theorem control_surface_shutdown (hApp : HANDLE) (hWnd : HWND) (inp : Input) :
    (((windowProc ⟨hApp, true⟩ hWnd inp).2.window = false ↔
        (inp.msg.uMsg = WM_COMMAND ∧ inp.msg.wParam = IDC_EXIT ∧ inp.answer = IDYES) ∨
          inp.msg.uMsg = WM_CLOSE) ∧
      (Effect.DestroyWindow (some hWnd) ∈ (windowProc ⟨hApp, true⟩ hWnd inp).1 ↔
        (inp.msg.uMsg = WM_COMMAND ∧ inp.msg.wParam = IDC_EXIT ∧ inp.answer = IDYES) ∨
          inp.msg.uMsg = WM_CLOSE) ∧
      ∀ rest, (messageLoop hWnd ⟨hApp, true⟩ (inp :: rest)).2 = true ↔
        ((inp.msg.uMsg = WM_COMMAND ∧ inp.msg.wParam = IDC_EXIT ∧ inp.answer = IDYES) ∨
          inp.msg.uMsg = WM_CLOSE) ∨ rest.any beginsShutdown = true) ∧
    (∀ wParam answer terminated,
      (windowProc ⟨hApp, true⟩ hWnd ⟨⟨TRAY_MSG, wParam, WM_RBUTTONDOWN⟩, answer, terminated⟩).2
        = ⟨hApp, true⟩) ∧
    (∀ lParam answer terminated,
      (windowProc ⟨hApp, true⟩ hWnd ⟨⟨WM_COMMAND, IDC_KILL, lParam⟩, answer, terminated⟩).2
        = ⟨hApp, true⟩) ∧
    (∀ lParam answer terminated, answer ≠ IDYES →
      (windowProc ⟨hApp, true⟩ hWnd ⟨⟨WM_COMMAND, IDC_EXIT, lParam⟩, answer, terminated⟩).2
        = ⟨hApp, true⟩) ∧
    ∀ (env : Env) targetExe hQuitEvent hThread pre rest,
      Started env targetExe hApp hQuitEvent hThread hWnd →
      env.queue = pre ++ inp :: rest →
      (∀ i ∈ pre, beginsShutdown i = false) → beginsShutdown inp = true →
        (WinMain env).exit = some 0 ∧
        WinMain env = WinMain { env with queue := pre ++ [inp] } := by
  refine ⟨⟨?_, ?_, ?_⟩, ?_, ?_, ?_, ?_⟩
  · rw [windowProc_state, ← beginsShutdown_iff]
    by_cases h : beginsShutdown inp = true <;> simp [h]
  · rw [windowProc_destroys_iff, beginsShutdown_iff]
  · intro rest
    rw [messageLoop_ends, List.any_cons, ← beginsShutdown_iff]
    simp
  · intro wParam answer terminated
    rw [windowProc_state]
    simp [beginsShutdown, TRAY_MSG, WM_USER, WM_COMMAND, WM_CLOSE]
  · intro lParam answer terminated
    rw [windowProc_state]
    simp [beginsShutdown, IDC_KILL, IDC_EXIT, WM_COMMAND, WM_CLOSE]
  · intro lParam answer terminated hno
    rw [windowProc_state]
    simp [beginsShutdown, hno, WM_COMMAND, WM_CLOSE]
  · intro env targetExe hQuitEvent hThread pre rest hs hq hpre hinp
    have hs' : Started { env with queue := pre ++ [inp] } targetExe hApp hQuitEvent hThread
        hWnd :=
      ⟨hs.hasTarget, hs.hasIcon, hs.hasPsapi, hs.hasEnum, hs.hasImage, hs.found,
        hs.registered, hs.hasWindow, hs.hasEvent, hs.hasThread, hs.hasTray⟩
    have hstop := messageLoop_stops hWnd hApp pre rest inp hpre hinp
    have hend : (messageLoop hWnd ⟨hApp, true⟩ (pre ++ [inp])).2 = true := by
      rw [messageLoop_ends]
      simp [hinp]
    rw [WinMain_started env targetExe hApp hQuitEvent hThread hWnd hs,
      WinMain_started _ targetExe hApp hQuitEvent hThread hWnd hs']
    simp only [hq, hstop, hend, if_true]
    exact ⟨trivial, trivial⟩

theorem sampleEnv_started (queue : List Input) :
    Started (sampleEnv (fun _ => withTarget) queue) sampleTarget 100 40 50 30 :=
  ⟨rfl, by simp [sampleEnv], by simp [sampleEnv], rfl, rfl,
    (by decide : (waitForTarget sampleTarget (fun _ => withTarget) WAIT_SECS 0).2 = some 100),
    by simp [sampleEnv], rfl, rfl, rfl, rfl⟩

/-- C7 at a run whose queue holds a right-click, the shutdown notification and
another right-click, and at a declined "Remove this icon". -/
theorem control_surface_shutdown_witness :
    (WinMain (sampleEnv (fun _ => withTarget) [rightClick, closeMessage, rightClick])).exit
      = some 0 ∧
    (windowProc ⟨100, true⟩ 30 ⟨⟨WM_COMMAND, IDC_EXIT, 0⟩, IDNO, true⟩).2 = ⟨100, true⟩ :=
  ⟨((control_surface_shutdown 100 30 closeMessage).2.2.2.2
      (sampleEnv (fun _ => withTarget) [rightClick, closeMessage, rightClick])
      sampleTarget 40 50 [rightClick] [rightClick]
      (sampleEnv_started _) rfl (by decide) (by decide)).1,
    (control_surface_shutdown 100 30 closeMessage).2.2.2.1 0 IDNO true (by decide)⟩

/-- C8, as stated, fails: when "Terminate application" is confirmed and the
termination request fails, none of the calls `windowProc` makes reports an
error to the user. -/
theorem failed_termination_shows_no_error :
    ¬ ((windowProc ⟨100, true⟩ 30 failedKill).1.any isErrorReport = true) := by
  decide

/-- C8 as amended: when "Terminate application" is confirmed and the
termination request fails, `windowProc` makes the same calls as when it
succeeds (the confirmation, then `TerminateProcess(::hApp, 99)`), none of them
an error report; the state stays Running (the window is not destroyed) and the
message loop goes on with the next message. -/
theorem failed_termination_is_discarded (hApp : HANDLE) (hWnd : HWND) (lParam : Nat)
    (rest : List Input) :
    windowProc ⟨hApp, true⟩ hWnd ⟨⟨WM_COMMAND, IDC_KILL, lParam⟩, IDYES, false⟩ =
      ([confirmKill, Effect.TerminateProcess hApp 99], ⟨hApp, true⟩) ∧
    windowProc ⟨hApp, true⟩ hWnd ⟨⟨WM_COMMAND, IDC_KILL, lParam⟩, IDYES, false⟩ =
      windowProc ⟨hApp, true⟩ hWnd ⟨⟨WM_COMMAND, IDC_KILL, lParam⟩, IDYES, true⟩ ∧
    (windowProc ⟨hApp, true⟩ hWnd ⟨⟨WM_COMMAND, IDC_KILL, lParam⟩, IDYES, false⟩).1.any
      isErrorReport = false ∧
    messageLoop hWnd ⟨hApp, true⟩ (⟨⟨WM_COMMAND, IDC_KILL, lParam⟩, IDYES, false⟩ :: rest) =
      ([confirmKill, Effect.TerminateProcess hApp 99] ++
          (messageLoop hWnd ⟨hApp, true⟩ rest).1,
        (messageLoop hWnd ⟨hApp, true⟩ rest).2) := by
  have h : ∀ t, windowProc ⟨hApp, true⟩ hWnd ⟨⟨WM_COMMAND, IDC_KILL, lParam⟩, IDYES, t⟩ =
      ([confirmKill, Effect.TerminateProcess hApp 99], ⟨hApp, true⟩) := by
    intro t
    simp [windowProc, handleMessage, DefWindowProc, terminateProcess, WM_COMMAND, WM_CLOSE]
  refine ⟨h false, by rw [h false, h true], ?_, ?_⟩
  · rw [h false]
    simp [isErrorReport, confirmKill]
  · simp only [messageLoop, h false]
    simp

/-! ## Exit codes -/

theorem monitor_exit (env : Env) (hApp : HANDLE) :
    (monitor env hApp).exit =
      if env.aWndClass = 0 then some 1
      else if env.hQuitEvent.isNone = true then some 3
      else if env.hThread.isNone = true then some 3
      else if env.trayAdded = false then some 3
      else if loopEnds env = true then some 0 else none := by
  unfold monitor loopEnds
  by_cases hc : env.aWndClass = 0
  · simp [hc]
  · cases hq : env.hQuitEvent with
    | none => simp [hc]
    | some hQuitEvent =>
      cases ht : env.hThread with
      | none => simp [hc]
      | some hThread =>
        cases ha : env.trayAdded with
        | false => simp [hc]
        | true =>
          cases hw : env.hWndHidden with
          | none => simp [hc]
          | some hWndHidden =>
            simp only [hc, messageLoop_ends]
            by_cases hl : env.queue.any beginsShutdown = true
            · simp [hl]
            · simp [hl]

theorem WinMain_exit (env : Env) :
    (WinMain env).exit =
      match firstFailure env with
      | some step => some (exitCodeOf step)
      | none => if loopEnds env = true then some 0 else none := by
  cases ht : env.targetExe with
  | none => simp [WinMain, ht, firstFailure, startupSteps, stepFails, exitCodeOf]
  | some targetExe =>
    cases hi : env.trayIconFile with
    | none => simp [WinMain, ht, hi, firstFailure, startupSteps, stepFails, exitCodeOf]
    | some icon =>
      cases hp : env.hPS with
      | none => simp [WinMain, ht, hi, hp, firstFailure, startupSteps, stepFails, exitCodeOf]
      | some hPS =>
        cases he : env.hasEnumProcesses with
        | false =>
          simp [WinMain, ht, hi, hp, he, firstFailure, startupSteps, stepFails, exitCodeOf]
        | true =>
          cases hg : env.hasGetProcessImageFileName with
          | false =>
            simp [WinMain, ht, hi, hp, he, hg, firstFailure, startupSteps, stepFails,
              exitCodeOf]
          | true =>
            cases hf : (waitForTarget targetExe env.running WAIT_SECS 0).2 with
            | none =>
              rw [WinMain_not_found env targetExe icon hPS ht hi hp he hg hf]
              simp [ht, hi, hp, he, hg, hf, firstFailure, startupSteps, stepFails, exitCodeOf,
                List.find?_cons]
            | some hApp =>
              rw [WinMain_found env targetExe icon hPS hApp ht hi hp he hg hf]
              simp only [monitor_exit]
              by_cases hc : env.aWndClass = 0
              · simp [ht, hi, hp, he, hg, hf, hc, firstFailure, startupSteps, stepFails,
                  exitCodeOf, List.find?_cons]
              · cases hq : env.hQuitEvent with
                | none =>
                  simp [ht, hi, hp, he, hg, hf, hc, hq, firstFailure, startupSteps, stepFails,
                    exitCodeOf, List.find?_cons]
                | some hQuitEvent =>
                  cases hth : env.hThread with
                  | none =>
                    simp [ht, hi, hp, he, hg, hf, hc, hq, hth, firstFailure, startupSteps,
                      stepFails, exitCodeOf, List.find?_cons]
                  | some hThread =>
                    cases ha : env.trayAdded with
                    | false =>
                      simp [ht, hi, hp, he, hg, hf, hc, hq, hth, ha, firstFailure,
                        startupSteps, stepFails, exitCodeOf, List.find?_cons]
                    | true =>
                      simp [ht, hi, hp, he, hg, hf, hc, hq, hth, ha, firstFailure,
                        startupSteps, stepFails, exitCodeOf, List.find?_cons]

/-- C9: the exit code of `WinMain` is that of the first startup step that
fails, in the order the steps are taken: 1 for a missing argument, for PSAPI
or one of its two functions not being found, and for the window class; 2 when
the startup loop does not find the target; 3 for the quit event, the thread
and the tray icon; when no step fails it is 0 once the message loop ends (and
the run does not return while it does not).  Whether the icon file loads
changes the exit code in no run. -/
theorem WinMain_exit_code (env : Env) :
    ((WinMain env).exit =
      match firstFailure env with
      | some step => some (exitCodeOf step)
      | none => if loopEnds env = true then some 0 else none) ∧
    (exitCodeOf StartupStep.arguments = 1 ∧ exitCodeOf StartupStep.loadPsapi = 1 ∧
      exitCodeOf StartupStep.resolveEnumProcesses = 1 ∧
      exitCodeOf StartupStep.resolveGetProcessImageFileName = 1 ∧
      exitCodeOf StartupStep.registerClass = 1 ∧ exitCodeOf StartupStep.locateTarget = 2 ∧
      exitCodeOf StartupStep.createQuitEvent = 3 ∧ exitCodeOf StartupStep.createThread = 3 ∧
      exitCodeOf StartupStep.addTrayIcon = 3) ∧
    ∀ hTrayIcon, (WinMain { env with hTrayIcon := hTrayIcon }).exit = (WinMain env).exit := by
  refine ⟨WinMain_exit env, by decide, ?_⟩
  intro hTrayIcon
  rw [WinMain_exit, WinMain_exit]
  rfl

/-! ## Handles -/

theorem live_append (held : List HANDLE) (a b : List Effect) :
    live held (a ++ b) = live (live held a) b := by
  induction a generalizing held with
  | nil => rfl
  | cons e rest ih => simp [live, ih]

theorem atMostOneLive_append (held : List HANDLE) (a b : List Effect) :
    atMostOneLive held (a ++ b) = (atMostOneLive held a && atMostOneLive (live held a) b) := by
  induction a generalizing held with
  | nil =>
    cases b with
    | nil => simp [atMostOneLive, live]
    | cons e rest => simp [atMostOneLive, live]
  | cons e rest ih => simp [atMostOneLive, live, ih, Bool.and_assoc]

theorem liveStep_length_le (held : List HANDLE) (e : Effect) (h : opensHandle e = false) :
    (liveStep held e).length ≤ held.length := by
  cases e <;> simp [liveStep]
  case OpenProcess pid result =>
    cases result with
    | none => simp
    | some x => simp [opensHandle] at h
  case CloseHandle x =>
    exact (List.erase_sublist x held).length_le

theorem atMostOneLive_of_no_open (held : List HANDLE) (calls : List Effect)
    (hno : calls.any opensHandle = false) (hheld : held.length ≤ 1) :
    atMostOneLive held calls = true := by
  induction calls generalizing held with
  | nil => simp [atMostOneLive, hheld]
  | cons e rest ih =>
    simp only [List.any_cons, Bool.or_eq_false_iff] at hno
    have hle := liveStep_length_le held e hno.1
    simp [atMostOneLive, hheld, ih (liveStep held e) hno.2 (by omega)]

theorem lookupLoop_live (targetName : List Char) (procs : List Process) :
    atMostOneLive [] (lookupLoop targetName procs).1 = true ∧
    live [] (lookupLoop targetName procs).1 = (lookupLoop targetName procs).2.toList := by
  induction procs with
  | nil => simp [lookupLoop, atMostOneLive, live]
  | cons p rest ih =>
    rcases p with ⟨pid, hProc, image⟩
    cases hProc with
    | none => simpa [lookupLoop, atMostOneLive, live, liveStep] using ih
    | some h =>
      by_cases hm : matchesTarget targetName
          (GetProcessImageFileName ⟨pid, some h, image⟩) (procNameOf ⟨pid, some h, image⟩) = true
      · simp [lookupLoop, hm, atMostOneLive, live, liveStep]
      · simpa [lookupLoop, hm, atMostOneLive, live, liveStep] using ih

theorem lookupProcess_live (targetName : List Char) (hlen : targetName.length > 0)
    (running : List Process) :
    atMostOneLive [] (lookupProcess targetName hlen running).1 = true ∧
    live [] (lookupProcess targetName hlen running).1 =
      (lookupProcess targetName hlen running).2.toList := by
  have h := lookupLoop_live targetName (running.take MAX_PROCESS_IDS)
  simpa [lookupProcess, atMostOneLive, live, liveStep] using h

theorem waitForTarget_live (targetExe : Token) (running : Nat → List Process)
    (remaining waited : Nat) :
    atMostOneLive [] (waitForTarget targetExe running remaining waited).1 = true ∧
    live [] (waitForTarget targetExe running remaining waited).1 =
      (waitForTarget targetExe running remaining waited).2.toList := by
  induction remaining generalizing waited with
  | zero => exact lookupProcess_live _ _ _
  | succ n ih =>
    have hl := lookupProcess_live targetExe.chars targetExe.nonempty (running waited)
    have hr := ih (waited + 1)
    simp only [waitForTarget]
    generalize lookupProcess targetExe.chars targetExe.nonempty (running waited) = L at hl
    generalize waitForTarget targetExe running n (waited + 1) = W at hr
    rcases L with ⟨calls, result⟩
    rcases W with ⟨calls', result'⟩
    cases result with
    | some hApp => exact hl
    | none =>
      simp only [Option.toList] at hl
      simp only [atMostOneLive_append, live_append, hl.1, hl.2]
      simpa [atMostOneLive, live, liveStep] using hr

theorem windowProc_no_handle_calls (st : State) (hWnd : HWND) (inp : Input) :
    (windowProc st hWnd inp).1.any opensHandle = false ∧
    (windowProc st hWnd inp).1.any closesHandle = false := by
  unfold windowProc handleMessage DefWindowProc terminateProcess confirmKill confirmExit
  constructor <;> split_ifs <;> simp [opensHandle, closesHandle]

theorem messageLoop_no_handle_calls (hWnd : HWND) (st : State) (queue : List Input) :
    (messageLoop hWnd st queue).1.any opensHandle = false ∧
    (messageLoop hWnd st queue).1.any closesHandle = false := by
  induction queue generalizing st with
  | nil => simp [messageLoop]
  | cons inp rest ih =>
    have hw := windowProc_no_handle_calls st hWnd inp
    simp only [messageLoop]
    split
    · have hr := ih (windowProc st hWnd inp).2
      simp [List.any_append, hw.1, hw.2, hr.1, hr.2]
    · exact hw

theorem iconError_no_open (hTrayIcon : Option HANDLE) :
    (iconError hTrayIcon).any opensHandle = false := by
  cases hTrayIcon <;> simp [iconError, opensHandle]

theorem teardown_no_open (hApp hQuitEvent hThread : HANDLE) (hWndHidden : HWND)
    (hTrayIcon : Option HANDLE) :
    (teardown hApp hQuitEvent hThread hWndHidden hTrayIcon).any opensHandle = false := by
  cases hTrayIcon <;> simp [teardown, opensHandle]

theorem monitor_no_open (env : Env) (hApp : HANDLE) :
    (monitor env hApp).trace.any opensHandle = false := by
  unfold monitor
  split
  · simp [opensHandle]
  · split
    · simp [opensHandle]
    · split
      · simp [opensHandle]
      · split
        · simp [opensHandle]
        · split
          · simp [opensHandle]
          · dsimp only
            split
            · simp [List.any_append, opensHandle, teardown_no_open,
                (messageLoop_no_handle_calls _ _ _).1]
            · simp [List.any_append, opensHandle, (messageLoop_no_handle_calls _ _ _).1]

theorem live_of_no_handle_calls (held : List HANDLE) (calls : List Effect)
    (ho : calls.any opensHandle = false) (hc : calls.any closesHandle = false) :
    live held calls = held := by
  induction calls generalizing held with
  | nil => rfl
  | cons e rest ih =>
    simp only [List.any_cons, Bool.or_eq_false_iff] at ho hc
    have hstep : liveStep held e = held := by
      cases e <;> simp_all [liveStep, opensHandle, closesHandle]
      case OpenProcess pid result =>
        cases result <;> simp_all [opensHandle]
    simp [live, hstep, ih held ho.2 hc.2]

theorem live_length_le_of_no_open (held : List HANDLE) (calls : List Effect)
    (ho : calls.any opensHandle = false) :
    (live held calls).length ≤ held.length := by
  induction calls generalizing held with
  | nil => simp [live]
  | cons e rest ih =>
    simp only [List.any_cons, Bool.or_eq_false_iff] at ho
    have h1 := liveStep_length_le held e ho.1
    have h2 := ih (liveStep held e) ho.2
    simp only [live]
    omega

/-- In every run of `WinMain`, at most one process handle is held at any
point of the run. -/
theorem WinMain_atMostOneLive (env : Env) : atMostOneLive [] (WinMain env).trace = true := by
  cases ht : env.targetExe with
  | none => simp [WinMain, ht, atMostOneLive, liveStep]
  | some targetExe =>
    cases hi : env.trayIconFile with
    | none => simp [WinMain, ht, hi, atMostOneLive, liveStep]
    | some icon =>
      cases hp : env.hPS with
      | none => simp [WinMain, ht, hi, hp, atMostOneLive, liveStep]
      | some hPS =>
        cases he : env.hasEnumProcesses with
        | false => simp [WinMain, ht, hi, hp, he, atMostOneLive, liveStep]
        | true =>
          cases hg : env.hasGetProcessImageFileName with
          | false => simp [WinMain, ht, hi, hp, he, hg, atMostOneLive, liveStep]
          | true =>
            have hw := waitForTarget_live targetExe env.running WAIT_SECS 0
            have hicon := atMostOneLive_of_no_open [] _ (iconError_no_open env.hTrayIcon)
              (by simp)
            have hlive : live [] (iconError env.hTrayIcon) = [] := by
              cases env.hTrayIcon <;> simp [iconError, live, liveStep]
            cases hf : (waitForTarget targetExe env.running WAIT_SECS 0).2 with
            | none =>
              rw [WinMain_not_found env targetExe icon hPS ht hi hp he hg hf]
              simp only [atMostOneLive_append, hicon, hlive, hw.1, Bool.and_self]
            | some hApp =>
              rw [WinMain_found env targetExe icon hPS hApp ht hi hp he hg hf]
              have hm := atMostOneLive_of_no_open [hApp] _ (monitor_no_open env hApp) (by simp)
              simp only [atMostOneLive_append, live_append, hicon, hlive, hw.1, hw.2, hf,
                Option.toList, hm, Bool.and_self]

/-- C10, at the failing input: in the run where the startup loop finds the
target (handle 100) and `RegisterClass` then fails, `WinMain` returns 1 and
the handle is never passed to `CloseHandle`: it is still held when the run
ends, although the claim has it released exactly once. -/
theorem WinMain_keeps_handle_when_startup_fails :
    (waitForTarget sampleTarget registerFailsEnv.running WAIT_SECS 0).2 = some 100 ∧
    (WinMain registerFailsEnv).exit = some 1 ∧
    ¬ ((WinMain registerFailsEnv).trace.count (Effect.CloseHandle 100) = 1) ∧
    live [] (WinMain registerFailsEnv).trace = [100] := by
  decide

/-- What `WinMain` does with the target handle on the path that reaches the
clean-up: in every run of `WinMain` at most one process handle is
held at any point.  In every run in which every startup step succeeds and the
message loop ends, the handle found by the startup loop is the only one held
when the loop is left; no handle is opened or closed between that point and
the end of the message loop; the clean-up then signals the quit event and
waits at most two seconds for the thread, closes the thread and event
handles, removes the tray icon, destroys the window, unregisters the class,
destroys the icon if one was loaded, and closes the target handle as its last
call (the only `CloseHandle` on it when the three handles are distinct);
`WinMain` returns 0 and no process handle is held any more. -/
theorem WinMain_releases_target_last (env : Env) :
    atMostOneLive [] (WinMain env).trace = true ∧
    ∀ targetExe hApp hQuitEvent hThread hWndHidden,
      Started env targetExe hApp hQuitEvent hThread hWndHidden → loopEnds env = true →
        ((WinMain env).trace =
          (iconError env.hTrayIcon ++ (waitForTarget targetExe env.running WAIT_SECS 0).1) ++
          (startedCalls ++ (messageLoop hWndHidden ⟨hApp, true⟩ env.queue).1) ++
          ([Effect.SignalObjectAndWait hQuitEvent hThread 2000,
            Effect.CloseHandle hThread,
            Effect.CloseHandle hQuitEvent,
            Effect.Shell_NotifyIcon NIM_DELETE,
            Effect.DestroyWindow (some hWndHidden),
            Effect.UnregisterClass] ++
           (match env.hTrayIcon with
            | some hIcon => [Effect.DestroyIcon hIcon]
            | none => []) ++
           [Effect.CloseHandle hApp])) ∧
        (WinMain env).exit = some 0 ∧
        live [] (iconError env.hTrayIcon ++
          (waitForTarget targetExe env.running WAIT_SECS 0).1) = [hApp] ∧
        (startedCalls ++ (messageLoop hWndHidden ⟨hApp, true⟩ env.queue).1).any opensHandle
          = false ∧
        (startedCalls ++ (messageLoop hWndHidden ⟨hApp, true⟩ env.queue).1).any closesHandle
          = false ∧
        live [] (WinMain env).trace = [] ∧
        (hApp ≠ hThread → hApp ≠ hQuitEvent →
          ((startedCalls ++ (messageLoop hWndHidden ⟨hApp, true⟩ env.queue).1) ++
            teardown hApp hQuitEvent hThread hWndHidden env.hTrayIcon).count
              (Effect.CloseHandle hApp) = 1) := by
  refine ⟨WinMain_atMostOneLive env, ?_⟩
  intro targetExe hApp hQuitEvent hThread hWndHidden hs hend
  have hloop : (messageLoop hWndHidden ⟨hApp, true⟩ env.queue).2 = true := by
    rw [messageLoop_ends]
    simp only [loopEnds, Bool.and_eq_true] at hend
    exact hend.2
  have hcalls := messageLoop_no_handle_calls hWndHidden ⟨hApp, true⟩ env.queue
  have hfound : live [] (iconError env.hTrayIcon ++
      (waitForTarget targetExe env.running WAIT_SECS 0).1) = [hApp] := by
    have hlive : live [] (iconError env.hTrayIcon) = [] := by
      cases env.hTrayIcon <;> simp [iconError, live, liveStep]
    rw [live_append, hlive, (waitForTarget_live targetExe env.running WAIT_SECS 0).2, hs.found]
    rfl
  have hopen : (startedCalls ++ (messageLoop hWndHidden ⟨hApp, true⟩ env.queue).1).any
      opensHandle = false := by
    simp [List.any_append, startedCalls, opensHandle, hcalls.1]
  have hclose : (startedCalls ++ (messageLoop hWndHidden ⟨hApp, true⟩ env.queue).1).any
      closesHandle = false := by
    simp [List.any_append, startedCalls, closesHandle, hcalls.2]
  have htrace := WinMain_started env targetExe hApp hQuitEvent hThread hWndHidden hs
  rw [if_pos hloop] at htrace
  rw [htrace]
  refine ⟨?_, rfl, hfound, hopen, hclose, ?_, ?_⟩
  · simp [teardown, List.append_assoc]
  · show live [] (_ ++ _ ++ (_ ++ _ ++ teardown hApp hQuitEvent hThread hWndHidden _)) = []
    rw [live_append, hfound, live_append, live_of_no_handle_calls [hApp] _ hopen hclose]
    have hdown : ∀ icon, live [hApp] (teardown hApp hQuitEvent hThread hWndHidden icon)
        = [] := by
      intro icon
      rcases eq_or_ne hThread hApp with h1 | h1 <;>
        rcases eq_or_ne hQuitEvent hApp with h2 | h2
      · subst h1
        subst h2
        cases icon <;> simp [teardown, live, liveStep]
      · subst h1
        cases icon <;> simp [teardown, live, liveStep]
      · subst h2
        cases icon <;> simp [teardown, live, liveStep, List.erase_cons, h1.symm]
      · cases icon <;>
          simp [teardown, live, liveStep, List.erase_cons, h1.symm, h2.symm]
    exact hdown _
  · intro h1 h2
    have hzero : (startedCalls ++ (messageLoop hWndHidden ⟨hApp, true⟩ env.queue).1).count
        (Effect.CloseHandle hApp) = 0 := by
      rw [List.count_eq_zero]
      intro hmem
      have := List.any_eq_true.2 ⟨_, hmem, (rfl : closesHandle (Effect.CloseHandle hApp) = true)⟩
      rw [hclose] at this
      exact Bool.false_ne_true this
    rw [List.count_append, hzero]
    cases env.hTrayIcon <;>
      simp [teardown, List.count_cons, Ne.symm h1, Ne.symm h2]

/-- The release of the target handle at a run whose queue holds a right-click
and the shutdown notification. -/
theorem WinMain_releases_target_last_witness :
    (WinMain (sampleEnv (fun _ => withTarget) [rightClick, closeMessage])).exit = some 0 ∧
    live [] (WinMain (sampleEnv (fun _ => withTarget) [rightClick, closeMessage])).trace
      = [] ∧
    ((startedCalls ++ (messageLoop 30 ⟨100, true⟩ [rightClick, closeMessage]).1) ++
      teardown 100 40 50 30 (some 20)).count (Effect.CloseHandle 100) = 1 :=
  have h := (WinMain_releases_target_last
    (sampleEnv (fun _ => withTarget) [rightClick, closeMessage])).2
    sampleTarget 100 40 50 30 (sampleEnv_started _) (by decide)
  ⟨h.2.1, h.2.2.2.2.2.1, h.2.2.2.2.2.2 (by decide) (by decide)⟩

/-- In every run, the part of `WinMain` after the startup loop closes no
handle before the clean-up: its calls split into a part without `CloseHandle`
and a rest that is either empty or the clean-up, which starts with
`SignalObjectAndWait` (two-second bound), ends with `CloseHandle(::hApp)`,
closes that handle once when the event and thread handles differ from it, and
is followed by exit code 0. -/
theorem monitor_release_safety (env : Env) (hApp : HANDLE) :
    ∃ before rest, (monitor env hApp).trace = before ++ rest ∧
      before.any closesHandle = false ∧
      (rest = [] ∨
        ((monitor env hApp).exit = some 0 ∧
          ∃ hQuitEvent hThread,
            rest.head? = some (Effect.SignalObjectAndWait hQuitEvent hThread 2000) ∧
            rest.getLast? = some (Effect.CloseHandle hApp) ∧
            (hQuitEvent ≠ hApp → hThread ≠ hApp →
              rest.count (Effect.CloseHandle hApp) = 1))) := by
  unfold monitor
  split
  · exact ⟨_, [], (List.append_nil _).symm, by simp [closesHandle], Or.inl rfl⟩
  · split
    · exact ⟨_, [], (List.append_nil _).symm, by simp [closesHandle], Or.inl rfl⟩
    · split
      · exact ⟨_, [], (List.append_nil _).symm, by simp [closesHandle], Or.inl rfl⟩
      · split
        · exact ⟨_, [], (List.append_nil _).symm, by simp [closesHandle], Or.inl rfl⟩
        · split
          · exact ⟨_, [], (List.append_nil _).symm, by simp [closesHandle], Or.inl rfl⟩
          · rename_i hQuitEvent _ _ hThread _ _ _ hWndHidden _
            dsimp only
            have hcalls := messageLoop_no_handle_calls hWndHidden ⟨hApp, true⟩ env.queue
            split
            · refine ⟨_, teardown hApp hQuitEvent hThread hWndHidden env.hTrayIcon, rfl, ?_,
                Or.inr ⟨rfl, hQuitEvent, hThread, ?_, ?_, ?_⟩⟩
              · simp [List.any_append, closesHandle, hcalls.2]
              · cases env.hTrayIcon <;> simp [teardown]
              · cases env.hTrayIcon <;> simp [teardown]
              · intro h1 h2
                cases env.hTrayIcon <;> simp [teardown, List.count_cons, h1, h2]
            · exact ⟨_, [], (List.append_nil _).symm,
                by simp [List.any_append, closesHandle, hcalls.2], Or.inl rfl⟩

end Killapp
